import Mathlib

/-!
Verification development for the `isaacphi/servers` repository.

The development shallowly embeds, in Lean, the parts of the TypeScript
sources that carry genuine logic:

* the Google Drive credential lifecycle (`authenticateAndSaveCredentials`,
  `loadOrRefreshCredentials`, and the periodic refresh loop) from
  `src/gdrive/index.ts` and the auth module;
* the Drive search query escaping from `src/gdrive/tools/gdrive_search.ts`;
* the `ReadResource` request handler of the puppeteer server from
  `src/puppeteer/index.ts`.

Effectful TypeScript is modelled as explicit state passing: the credential
file on disk is a `FileState`, the external world (clock, OAuth endpoints,
write success) is an `Env`, and every run records the observable I/O
actions it performed in a `trace` so that statements about "no network
I/O" or "exactly one interactive authorization" can be made precise.
-/

deriving instance DecidableEq for Except

namespace GDriveAuth

/-- The persisted credential record (`.gdrive-server-credentials.json`).
`expiry_date` is the absolute expiry time in milliseconds, as stored by
the OAuth library and read back by `loadOrRefreshCredentials`. -/
structure Credentials where
  access_token : String
  refresh_token : Option String
  expiry_date : Int
deriving DecidableEq, Repr

/-- The state of the credential file on disk: missing, present but
unparseable (`JSON.parse` throws), or present and parseable. -/
inductive FileState where
  | missing : FileState
  | corrupt : FileState
  | valid : Credentials → FileState
deriving DecidableEq, Repr

/-- Observable I/O actions performed by the auth code, in order. The
three network actions are kept distinct because they occur at distinct
call sites on distinct client objects in the source:
`silentRefreshCall` is `oauth2Client.refreshAccessToken()` inside
`loadOrRefreshCredentials` (the silent refresh of the saved record),
`authFlowCall` is the interactive `authenticate(...)` consent flow, and
`offlineRefreshCall` is the `auth.refreshAccessToken()` performed inside
`authenticateAndSaveCredentials` right after the consent flow to obtain
offline-access credentials. -/
inductive Event where
  | fileExistsCheck : Event
  | fileRead : Event
  | fileWriteAttempt : Credentials → Event
  | silentRefreshCall : Event
  | authFlowCall : Event
  | offlineRefreshCall : Event
deriving DecidableEq, Repr

/-- The external world as seen by one call: the current clock value and
the outcomes the environment would give to each external action.
`silentRefresh` is the outcome of `oauth2Client.refreshAccessToken()`,
`authFlow` the outcome of the interactive `authenticate(...)` flow,
`offlineRefresh` the outcome of the post-consent `auth.refreshAccessToken()`,
and `writeOk` tells whether `fs.writeFileSync` succeeds. -/
structure Env where
  now : Int
  silentRefresh : Except Unit Credentials
  authFlow : Except Unit Credentials
  offlineRefresh : Except Unit Credentials
  writeOk : Bool

/-- Outcome of one call: the value returned to the caller (`.error` means
an exception propagated out), the final state of the credential file, and
the ordered trace of I/O actions performed. -/
structure RunResult where
  result : Except Unit Credentials
  store : FileState
  trace : List Event
deriving DecidableEq, Repr

/-- `5 * 60 * 1000` milliseconds, the refresh threshold of
`loadOrRefreshCredentials`. -/
def fiveMinutes : Int := 5 * 60 * 1000

/-- Embedding of `authenticateAndSaveCredentials`: run the interactive
consent flow (an exception there propagates); then, inside a try block,
refresh the fresh credentials to obtain offline access and write them to
the credential file; if the refresh or the write throws, the error is
caught and the client holding the interactive credentials is returned
with the file untouched. -/
def authenticateAndSaveCredentials (env : Env) (store : FileState) : RunResult :=
  match env.authFlow with
  | .error e => ⟨.error e, store, [.authFlowCall]⟩
  | .ok interactiveCreds =>
    match env.offlineRefresh with
    | .error _ =>
      ⟨.ok interactiveCreds, store, [.authFlowCall, .offlineRefreshCall]⟩
    | .ok credentials =>
      if env.writeOk then
        ⟨.ok credentials, .valid credentials,
          [.authFlowCall, .offlineRefreshCall, .fileWriteAttempt credentials]⟩
      else
        ⟨.ok interactiveCreds, store,
          [.authFlowCall, .offlineRefreshCall, .fileWriteAttempt credentials]⟩

/-- Embedding of `loadOrRefreshCredentials`: if the credential file does
not exist, run the interactive flow; otherwise read and parse it (a parse
failure is caught and also falls back to the interactive flow); if the
record expires in less than five minutes, silently refresh when a refresh
token is present (persisting the response), falling back to the
interactive flow when the refresh or the write throws or when no refresh
token exists; otherwise return the saved record unchanged. -/
def loadOrRefreshCredentials (env : Env) (store : FileState) : RunResult :=
  match store with
  | .missing =>
    let r := authenticateAndSaveCredentials env store
    ⟨r.result, r.store, .fileExistsCheck :: r.trace⟩
  | .corrupt =>
    let r := authenticateAndSaveCredentials env store
    ⟨r.result, r.store, .fileExistsCheck :: .fileRead :: r.trace⟩
  | .valid savedCreds =>
    if savedCreds.expiry_date - env.now < fiveMinutes then
      match savedCreds.refresh_token with
      | some _ =>
        match env.silentRefresh with
        | .ok newCreds =>
          if env.writeOk then
            ⟨.ok newCreds, .valid newCreds,
              [.fileExistsCheck, .fileRead, .silentRefreshCall,
                .fileWriteAttempt newCreds]⟩
          else
            let r := authenticateAndSaveCredentials env store
            ⟨r.result, r.store,
              [.fileExistsCheck, .fileRead, .silentRefreshCall,
                .fileWriteAttempt newCreds] ++ r.trace⟩
        | .error _ =>
          let r := authenticateAndSaveCredentials env store
          ⟨r.result, r.store,
            [.fileExistsCheck, .fileRead, .silentRefreshCall] ++ r.trace⟩
      | none =>
        let r := authenticateAndSaveCredentials env store
        ⟨r.result, r.store, [.fileExistsCheck, .fileRead] ++ r.trace⟩
    else
      ⟨.ok savedCreds, store, [.fileExistsCheck, .fileRead]⟩

/-- The periodic refresh loop set up by `startServer` / `setupTokenRefresh`:
each tick calls `loadOrRefreshCredentials` inside a try block that catches
and logs any error, so the loop always proceeds to the next tick. The
list of environments gives, tick by tick, the world each tick sees; the
result collects each tick's trace and the final file state. -/
def schedulerRun : List Env → FileState → List (List Event) × FileState
  | [], st => ([], st)
  | e :: rest, st =>
    let r := loadOrRefreshCredentials e st
    let p := schedulerRun rest r.store
    (r.trace :: p.1, p.2)

/-- Number of occurrences of an event in a trace. -/
def countE (e : Event) (t : List Event) : Nat :=
  (t.filter (fun x => x = e)).length

/-- Whether an event is a network action (as opposed to local file I/O). -/
def isNetwork : Event → Bool
  | .silentRefreshCall => true
  | .authFlowCall => true
  | .offlineRefreshCall => true
  | _ => false

/-- A record at least five minutes from expiry is returned unchanged
after only the local existence check and file read. -/
theorem loadFresh (env : Env) (c : Credentials)
    (h : fiveMinutes ≤ c.expiry_date - env.now) :
    loadOrRefreshCredentials env (.valid c) =
      ⟨.ok c, .valid c, [.fileExistsCheck, .fileRead]⟩ := by
  simp only [loadOrRefreshCredentials]
  rw [if_neg (by omega)]

/-- Counting an event distributes over trace concatenation. -/
theorem countE_append (e : Event) (t1 t2 : List Event) :
    countE e (t1 ++ t2) = countE e t1 + countE e t2 := by
  simp [countE, List.filter_append]

/-- Every run of `authenticateAndSaveCredentials` performs exactly one
interactive consent flow and never a silent refresh of a saved record. -/
theorem authTraceCounts (env : Env) (st : FileState) :
    countE .authFlowCall (authenticateAndSaveCredentials env st).trace = 1 ∧
    countE .silentRefreshCall (authenticateAndSaveCredentials env st).trace = 0 := by
  unfold authenticateAndSaveCredentials
  cases env.authFlow with
  | error e => simp [countE]
  | ok ic =>
    cases env.offlineRefresh with
    | error e => simp [countE]
    | ok oc => by_cases hw : env.writeOk <;> simp [hw, countE]

/-- The value returned by `authenticateAndSaveCredentials` does not depend
on the current state of the credential file. -/
theorem authResultIndep (env : Env) (s1 s2 : FileState) :
    (authenticateAndSaveCredentials env s1).result =
      (authenticateAndSaveCredentials env s2).result := by
  unfold authenticateAndSaveCredentials
  cases env.authFlow with
  | error e => rfl
  | ok ic =>
    cases env.offlineRefresh with
    | error e => rfl
    | ok oc => by_cases hw : env.writeOk <;> simp [hw]

/-- When the post-consent offline-access refresh and the file write both
succeed, `authenticateAndSaveCredentials` leaves the file holding exactly
the record it returns. -/
theorem authSuccessPersists (env : Env) (st : FileState) (c oc : Credentials)
    (hw : env.writeOk = true) (ho : env.offlineRefresh = .ok oc)
    (hres : (authenticateAndSaveCredentials env st).result = .ok c) :
    (authenticateAndSaveCredentials env st).store = .valid c := by
  cases haf : env.authFlow with
  | error e =>
    simp only [authenticateAndSaveCredentials, haf] at hres
    exact absurd hres (by simp)
  | ok ic =>
    simp only [authenticateAndSaveCredentials, haf, ho, hw, ite_true] at hres ⊢
    injection hres with h
    rw [h]

/-- When the interactive consent flow succeeds,
`authenticateAndSaveCredentials` returns normally. -/
theorem authResultOk (env : Env) (st : FileState) (a : Credentials)
    (ha : env.authFlow = .ok a) :
    ∃ rc, (authenticateAndSaveCredentials env st).result = .ok rc := by
  unfold authenticateAndSaveCredentials
  rw [ha]
  cases env.offlineRefresh with
  | error e => exact ⟨a, rfl⟩
  | ok oc =>
    by_cases hw : env.writeOk
    · exact ⟨oc, by simp [hw]⟩
    · exact ⟨a, by simp [hw]⟩

end GDriveAuth

namespace GDriveAuth

/-- C1: a persisted record whose expiry is at least five minutes away is
returned unchanged, the store is untouched, and the trace contains no
network action: neither the silent refresh nor the interactive flow runs. -/
theorem c1_fresh_record_no_io (env : Env) (c : Credentials)
    (h : fiveMinutes ≤ c.expiry_date - env.now) :
    (loadOrRefreshCredentials env (.valid c)).result = .ok c ∧
    (loadOrRefreshCredentials env (.valid c)).store = .valid c ∧
    ((loadOrRefreshCredentials env (.valid c)).trace.filter isNetwork) = [] := by
  rw [loadFresh env c h]
  exact ⟨rfl, rfl, rfl⟩

theorem c1_fresh_record_no_io_witness :
    (loadOrRefreshCredentials
        ⟨0, .error (), .error (), .error (), true⟩
        (.valid ⟨"tok", none, 600000⟩)).result = .ok ⟨"tok", none, 600000⟩ ∧
    (loadOrRefreshCredentials
        ⟨0, .error (), .error (), .error (), true⟩
        (.valid ⟨"tok", none, 600000⟩)).store = .valid ⟨"tok", none, 600000⟩ ∧
    ((loadOrRefreshCredentials
        ⟨0, .error (), .error (), .error (), true⟩
        (.valid ⟨"tok", none, 600000⟩)).trace.filter isNetwork) = [] :=
  c1_fresh_record_no_io ⟨0, .error (), .error (), .error (), true⟩
    ⟨"tok", none, 600000⟩ (by decide)

/-- C2: for a saved record within five minutes of expiry that carries a
refresh token, a successful silent refresh (a fresh response credential
and a successful file write) makes the call return the response record,
leaves the store holding exactly that record, and the returned record's
expiry is strictly later than the saved one's, its refresh token the one
carried in the refresh response. -/
theorem c2_silent_refresh_success (env : Env) (c nc : Credentials) (r : String)
    (hstale : c.expiry_date - env.now < fiveMinutes)
    (hrt : c.refresh_token = some r)
    (href : env.silentRefresh = .ok nc)
    (hw : env.writeOk = true)
    (hfresh : c.expiry_date < nc.expiry_date) :
    (loadOrRefreshCredentials env (.valid c)).result = .ok nc ∧
    (loadOrRefreshCredentials env (.valid c)).store = .valid nc ∧
    ∀ rc, (loadOrRefreshCredentials env (.valid c)).result = .ok rc →
      c.expiry_date < rc.expiry_date ∧ rc.refresh_token = nc.refresh_token := by
  have heq : loadOrRefreshCredentials env (.valid c) =
      ⟨.ok nc, .valid nc,
        [.fileExistsCheck, .fileRead, .silentRefreshCall, .fileWriteAttempt nc]⟩ := by
    simp only [loadOrRefreshCredentials, hrt, href, hw, if_pos hstale, ite_true]
  rw [heq]
  refine ⟨rfl, rfl, ?_⟩
  intro rc hrc
  injection hrc with h
  subst h
  exact ⟨hfresh, rfl⟩

theorem c2_silent_refresh_success_witness :
    (loadOrRefreshCredentials
        ⟨0, .ok ⟨"new", some "r1", 700000⟩, .error (), .error (), true⟩
        (.valid ⟨"old", some "r1", 100000⟩)).result =
      .ok ⟨"new", some "r1", 700000⟩ ∧
    (loadOrRefreshCredentials
        ⟨0, .ok ⟨"new", some "r1", 700000⟩, .error (), .error (), true⟩
        (.valid ⟨"old", some "r1", 100000⟩)).store =
      .valid ⟨"new", some "r1", 700000⟩ ∧
    ∀ rc, (loadOrRefreshCredentials
        ⟨0, .ok ⟨"new", some "r1", 700000⟩, .error (), .error (), true⟩
        (.valid ⟨"old", some "r1", 100000⟩)).result = .ok rc →
      (100000 : Int) < rc.expiry_date ∧ rc.refresh_token = some "r1" :=
  c2_silent_refresh_success
    ⟨0, .ok ⟨"new", some "r1", 700000⟩, .error (), .error (), true⟩
    ⟨"old", some "r1", 100000⟩ ⟨"new", some "r1", 700000⟩ "r1"
    (by decide) rfl rfl rfl (by decide)

/-- C3: a saved record lacking a refresh token and within five minutes of
expiry makes the call run the interactive consent flow exactly once and
never attempt a silent refresh, whatever the environment does. -/
theorem c3_no_refresh_token_interactive (env : Env) (c : Credentials)
    (hstale : c.expiry_date - env.now < fiveMinutes)
    (hrt : c.refresh_token = none) :
    countE .authFlowCall (loadOrRefreshCredentials env (.valid c)).trace = 1 ∧
    countE .silentRefreshCall (loadOrRefreshCredentials env (.valid c)).trace = 0 := by
  have h := authTraceCounts env (.valid c)
  simp only [loadOrRefreshCredentials, hrt, if_pos hstale]
  constructor
  · rw [countE_append, h.1]
    decide
  · rw [countE_append, h.2]
    decide

theorem c3_no_refresh_token_interactive_witness :
    countE .authFlowCall
      (loadOrRefreshCredentials ⟨0, .error (), .error (), .error (), true⟩
        (.valid ⟨"old", none, 100000⟩)).trace = 1 ∧
    countE .silentRefreshCall
      (loadOrRefreshCredentials ⟨0, .error (), .error (), .error (), true⟩
        (.valid ⟨"old", none, 100000⟩)).trace = 0 :=
  c3_no_refresh_token_interactive ⟨0, .error (), .error (), .error (), true⟩
    ⟨"old", none, 100000⟩ (by decide) rfl

/-- C4: an existing but unparseable credential file is handled exactly as
a missing one: the call returns the same value as it would from an empty
store, runs the interactive consent flow exactly once, and, when the
consent flow succeeds, returns normally rather than propagating the
storage error. -/
theorem c4_corrupt_as_missing (env : Env) (a : Credentials)
    (ha : env.authFlow = .ok a) :
    (loadOrRefreshCredentials env .corrupt).result =
      (loadOrRefreshCredentials env .missing).result ∧
    countE .authFlowCall (loadOrRefreshCredentials env .corrupt).trace = 1 ∧
    ∃ rc, (loadOrRefreshCredentials env .corrupt).result = .ok rc := by
  have hind := authResultIndep env FileState.corrupt FileState.missing
  have hcount := authTraceCounts env FileState.corrupt
  have hok := authResultOk env FileState.corrupt a ha
  simp only [loadOrRefreshCredentials]
  refine ⟨hind, ?_, hok⟩
  rw [show (Event.fileExistsCheck :: Event.fileRead ::
      (authenticateAndSaveCredentials env .corrupt).trace) =
      [Event.fileExistsCheck, Event.fileRead] ++
      (authenticateAndSaveCredentials env .corrupt).trace from rfl,
    countE_append, hcount.1]
  decide

theorem c4_corrupt_as_missing_witness :
    (loadOrRefreshCredentials ⟨0, .error (), .ok ⟨"ia", none, 900000⟩, .error (), true⟩
        .corrupt).result =
      (loadOrRefreshCredentials ⟨0, .error (), .ok ⟨"ia", none, 900000⟩, .error (), true⟩
        .missing).result ∧
    countE .authFlowCall
      (loadOrRefreshCredentials ⟨0, .error (), .ok ⟨"ia", none, 900000⟩, .error (), true⟩
        .corrupt).trace = 1 ∧
    ∃ rc, (loadOrRefreshCredentials
        ⟨0, .error (), .ok ⟨"ia", none, 900000⟩, .error (), true⟩
        .corrupt).result = .ok rc :=
  c4_corrupt_as_missing ⟨0, .error (), .ok ⟨"ia", none, 900000⟩, .error (), true⟩
    ⟨"ia", none, 900000⟩ rfl

/-- C5 counterexample: with no persisted record, a consent flow that
succeeds, and a post-consent offline-access refresh that fails, the call
returns the interactive credentials normally — a successful execution —
yet the credential file still holds nothing, not the returned record. -/
theorem c5_counterexample :
    (loadOrRefreshCredentials
        ⟨0, .error (), .ok ⟨"ia", none, 999999⟩, .error (), true⟩
        .missing).result = .ok ⟨"ia", none, 999999⟩ ∧
    (loadOrRefreshCredentials
        ⟨0, .error (), .ok ⟨"ia", none, 999999⟩, .error (), true⟩
        .missing).store ≠ .valid ⟨"ia", none, 999999⟩ := by
  decide

/-- C5 amended: every successful path on which the post-consent
offline-access refresh and the file writes succeed ends with the
credential file holding exactly the record the call returns; the
exception is the interactive-authorization path whose post-consent
refresh or write fails, which returns credentials without persisting
them. -/
theorem c5_success_persists (env : Env) (st : FileState) (c oc : Credentials)
    (hw : env.writeOk = true) (ho : env.offlineRefresh = .ok oc)
    (hres : (loadOrRefreshCredentials env st).result = .ok c) :
    (loadOrRefreshCredentials env st).store = .valid c := by
  cases st with
  | missing =>
    simp only [loadOrRefreshCredentials] at hres ⊢
    exact authSuccessPersists env .missing c oc hw ho hres
  | corrupt =>
    simp only [loadOrRefreshCredentials] at hres ⊢
    exact authSuccessPersists env .corrupt c oc hw ho hres
  | valid saved =>
    simp only [loadOrRefreshCredentials] at hres ⊢
    by_cases hstale : saved.expiry_date - env.now < fiveMinutes
    · rw [if_pos hstale] at hres ⊢
      cases hrt : saved.refresh_token with
      | none =>
        simp only [hrt] at hres ⊢
        exact authSuccessPersists env (.valid saved) c oc hw ho hres
      | some r =>
        simp only [hrt] at hres ⊢
        cases hsr : env.silentRefresh with
        | ok nc =>
          simp only [hsr, hw, ite_true] at hres ⊢
          injection hres with h
          rw [h]
        | error e =>
          simp only [hsr] at hres ⊢
          exact authSuccessPersists env (.valid saved) c oc hw ho hres
    · rw [if_neg hstale] at hres ⊢
      injection hres with h
      rw [← h]

theorem c5_success_persists_witness :
    (loadOrRefreshCredentials
        ⟨0, .error (), .ok ⟨"ia", none, 900000⟩, .ok ⟨"oc", some "r", 950000⟩, true⟩
        .missing).store = .valid ⟨"oc", some "r", 950000⟩ :=
  c5_success_persists
    ⟨0, .error (), .ok ⟨"ia", none, 900000⟩, .ok ⟨"oc", some "r", 950000⟩, true⟩
    .missing ⟨"oc", some "r", 950000⟩ ⟨"oc", some "r", 950000⟩ rfl rfl (by decide)

/-- C6: when a near-expiry record with a refresh token hits a failing
silent refresh, the call falls back to the interactive flow — exactly one
silent refresh attempt and one consent flow — and, the flow and its
persist steps succeeding, returns that flow's credentials with the file
holding them; the refresh failure is not propagated. -/
theorem c6_refresh_failure_fallback (env : Env) (c a oc : Credentials) (r : String)
    (hstale : c.expiry_date - env.now < fiveMinutes)
    (hrt : c.refresh_token = some r)
    (href : env.silentRefresh = .error ())
    (ha : env.authFlow = .ok a)
    (ho : env.offlineRefresh = .ok oc)
    (hw : env.writeOk = true) :
    (loadOrRefreshCredentials env (.valid c)).result = .ok oc ∧
    (loadOrRefreshCredentials env (.valid c)).store = .valid oc ∧
    countE .silentRefreshCall (loadOrRefreshCredentials env (.valid c)).trace = 1 ∧
    countE .authFlowCall (loadOrRefreshCredentials env (.valid c)).trace = 1 := by
  have heq : loadOrRefreshCredentials env (.valid c) =
      ⟨.ok oc, .valid oc,
        [.fileExistsCheck, .fileRead, .silentRefreshCall] ++
          [.authFlowCall, .offlineRefreshCall, .fileWriteAttempt oc]⟩ := by
    simp only [loadOrRefreshCredentials, authenticateAndSaveCredentials, hrt, href, ha,
      ho, hw, if_pos hstale, ite_true]
  rw [heq]
  refine ⟨rfl, rfl, ?_, ?_⟩ <;> simp [countE]

theorem c6_refresh_failure_fallback_witness :
    (loadOrRefreshCredentials
        ⟨0, .error (), .ok ⟨"ia", none, 900000⟩, .ok ⟨"oc", some "r2", 950000⟩, true⟩
        (.valid ⟨"old", some "r1", 100000⟩)).result = .ok ⟨"oc", some "r2", 950000⟩ ∧
    (loadOrRefreshCredentials
        ⟨0, .error (), .ok ⟨"ia", none, 900000⟩, .ok ⟨"oc", some "r2", 950000⟩, true⟩
        (.valid ⟨"old", some "r1", 100000⟩)).store = .valid ⟨"oc", some "r2", 950000⟩ ∧
    countE .silentRefreshCall
      (loadOrRefreshCredentials
        ⟨0, .error (), .ok ⟨"ia", none, 900000⟩, .ok ⟨"oc", some "r2", 950000⟩, true⟩
        (.valid ⟨"old", some "r1", 100000⟩)).trace = 1 ∧
    countE .authFlowCall
      (loadOrRefreshCredentials
        ⟨0, .error (), .ok ⟨"ia", none, 900000⟩, .ok ⟨"oc", some "r2", 950000⟩, true⟩
        (.valid ⟨"old", some "r1", 100000⟩)).trace = 1 :=
  c6_refresh_failure_fallback
    ⟨0, .error (), .ok ⟨"ia", none, 900000⟩, .ok ⟨"oc", some "r2", 950000⟩, true⟩
    ⟨"old", some "r1", 100000⟩ ⟨"ia", none, 900000⟩ ⟨"oc", some "r2", 950000⟩ "r1"
    (by decide) rfl rfl rfl rfl rfl

/-- C7: over any run of scheduler ticks in which the saved record stays
near expiry with a refresh token and both the silent refresh and the
fallback consent flow fail at every tick, the loop completes every tick
(one trace per tick), each tick makes exactly one silent refresh attempt,
and the saved record is left in place — no tick's failure stops the
loop. -/
theorem c7_scheduler_retries (envs : List Env) (c : Credentials) (r : String)
    (hrt : c.refresh_token = some r)
    (h : ∀ e ∈ envs, e.silentRefresh = .error () ∧ e.authFlow = .error () ∧
        c.expiry_date - e.now < fiveMinutes) :
    ((schedulerRun envs (.valid c)).1).length = envs.length ∧
    (∀ t ∈ (schedulerRun envs (.valid c)).1, countE .silentRefreshCall t = 1) ∧
    (schedulerRun envs (.valid c)).2 = .valid c := by
  induction envs with
  | nil => exact ⟨rfl, fun t ht => absurd ht (by simp [schedulerRun]), rfl⟩
  | cons e rest ih =>
    obtain ⟨hsr, haf, hstale⟩ := h e (List.mem_cons_self _ _)
    have htick : loadOrRefreshCredentials e (.valid c) =
        ⟨.error (), .valid c,
          [.fileExistsCheck, .fileRead, .silentRefreshCall] ++ [.authFlowCall]⟩ := by
      simp only [loadOrRefreshCredentials, authenticateAndSaveCredentials, hrt, hsr,
        haf, if_pos hstale]
    have ih2 := ih (fun e' he' => h e' (List.mem_cons_of_mem _ he'))
    simp only [schedulerRun, htick]
    refine ⟨by simp [ih2.1], ?_, ih2.2.2⟩
    intro t ht
    rcases List.mem_cons.mp ht with h1 | h2
    · subst h1; decide
    · exact ih2.2.1 t h2

theorem c7_scheduler_retries_witness :
    ((schedulerRun
        [⟨0, .error (), .error (), .error (), true⟩,
         ⟨0, .error (), .error (), .error (), true⟩]
        (.valid ⟨"old", some "r1", 100000⟩)).1).length = 2 ∧
    (∀ t ∈ (schedulerRun
        [⟨0, .error (), .error (), .error (), true⟩,
         ⟨0, .error (), .error (), .error (), true⟩]
        (.valid ⟨"old", some "r1", 100000⟩)).1,
      countE .silentRefreshCall t = 1) ∧
    (schedulerRun
        [⟨0, .error (), .error (), .error (), true⟩,
         ⟨0, .error (), .error (), .error (), true⟩]
        (.valid ⟨"old", some "r1", 100000⟩)).2 = .valid ⟨"old", some "r1", 100000⟩ :=
  c7_scheduler_retries
    [⟨0, .error (), .error (), .error (), true⟩,
     ⟨0, .error (), .error (), .error (), true⟩]
    ⟨"old", some "r1", 100000⟩ "r1" rfl
    (by intro e he; fin_cases he <;> exact ⟨rfl, rfl, by decide⟩)

/-- C8 counterexample: with no persisted record, a successful consent
flow, and a failing post-consent offline-access refresh, the first call
returns a record more than five minutes from expiry, yet the immediately
following second call performs network I/O again (the record was never
persisted), so the two calls are not I/O-idempotent as claimed. -/
theorem c8_counterexample :
    (loadOrRefreshCredentials
        ⟨0, .error (), .ok ⟨"ia", none, 900000⟩, .error (), true⟩
        .missing).result = .ok ⟨"ia", none, 900000⟩ ∧
    fiveMinutes ≤ (900000 : Int) - 0 ∧
    ((loadOrRefreshCredentials
        ⟨0, .error (), .ok ⟨"ia", none, 900000⟩, .error (), true⟩
        ((loadOrRefreshCredentials
            ⟨0, .error (), .ok ⟨"ia", none, 900000⟩, .error (), true⟩
            .missing).store)).trace.filter isNetwork) ≠ [] := by
  decide

/-- C8 amended: when the first call returns a fresh record (at least five
minutes from expiry at the time of the second call) and has left that
record in the credential file, the immediately following second call
returns the same record, leaves the file untouched, and performs no
network I/O — only the local existence check and read. -/
theorem c8_idempotent_after_persisted_fresh (env1 env2 : Env) (st : FileState)
    (c : Credentials)
    (h1 : (loadOrRefreshCredentials env1 st).result = .ok c)
    (h2 : (loadOrRefreshCredentials env1 st).store = .valid c)
    (hfresh : fiveMinutes ≤ c.expiry_date - env2.now) :
    (loadOrRefreshCredentials env2 (loadOrRefreshCredentials env1 st).store).result =
      .ok c ∧
    (loadOrRefreshCredentials env2 (loadOrRefreshCredentials env1 st).store).store =
      (loadOrRefreshCredentials env1 st).store ∧
    ((loadOrRefreshCredentials env2
        (loadOrRefreshCredentials env1 st).store).trace.filter isNetwork) = [] := by
  rw [h2, loadFresh env2 c hfresh]
  exact ⟨rfl, rfl, rfl⟩

theorem c8_idempotent_after_persisted_fresh_witness :
    (loadOrRefreshCredentials ⟨0, .error (), .error (), .error (), true⟩
        ((loadOrRefreshCredentials
          ⟨0, .error (), .ok ⟨"ia", none, 900000⟩, .ok ⟨"oc", some "r", 900000⟩, true⟩
          .missing).store)).result = .ok ⟨"oc", some "r", 900000⟩ ∧
    (loadOrRefreshCredentials ⟨0, .error (), .error (), .error (), true⟩
        ((loadOrRefreshCredentials
          ⟨0, .error (), .ok ⟨"ia", none, 900000⟩, .ok ⟨"oc", some "r", 900000⟩, true⟩
          .missing).store)).store =
      (loadOrRefreshCredentials
          ⟨0, .error (), .ok ⟨"ia", none, 900000⟩, .ok ⟨"oc", some "r", 900000⟩, true⟩
          .missing).store ∧
    ((loadOrRefreshCredentials ⟨0, .error (), .error (), .error (), true⟩
        ((loadOrRefreshCredentials
          ⟨0, .error (), .ok ⟨"ia", none, 900000⟩, .ok ⟨"oc", some "r", 900000⟩, true⟩
          .missing).store)).trace.filter isNetwork) = [] :=
  c8_idempotent_after_persisted_fresh
    ⟨0, .error (), .ok ⟨"ia", none, 900000⟩, .ok ⟨"oc", some "r", 900000⟩, true⟩
    ⟨0, .error (), .error (), .error (), true⟩ .missing ⟨"oc", some "r", 900000⟩
    (by decide) (by decide) (by decide)

end GDriveAuth

namespace GDriveSearch

/-- First replacement of the `search` tool:
`userQuery.replace(/\\/g, "\\\\")` — every backslash is doubled. -/
def escapeBackslashes : List Char → List Char
  | [] => []
  | c :: rest =>
    if c = '\\' then '\\' :: '\\' :: escapeBackslashes rest
    else c :: escapeBackslashes rest

/-- Second replacement of the `search` tool: every single quote becomes a
backslash followed by a single quote. -/
def escapeQuotes : List Char → List Char
  | [] => []
  | c :: rest =>
    if c = '\'' then '\\' :: '\'' :: escapeQuotes rest
    else c :: escapeQuotes rest

/-- `escapedQuery` of the `search` tool: double the backslashes, then
escape the single quotes. -/
def escapedQuery (q : List Char) : List Char :=
  escapeQuotes (escapeBackslashes q)

/-- The Drive query string the `search` tool sends:
`fullText contains ` followed by the escaped query wrapped in single
quotes. -/
def formattedQuery (q : List Char) : List Char :=
  ("fullText contains ").toList ++ '\'' :: (escapedQuery q ++ ['\''])

/-- Scanner for the quote discipline of the Drive query language: walks
the text, treating a backslash as escaping the character after it, and
reports whether any single quote occurs outside an escape. -/
def hasUnescapedQuote : List Char → Bool
  | [] => false
  | [c] => c = '\''
  | c :: d :: rest =>
    if c = '\\' then hasUnescapedQuote rest
    else if c = '\'' then true
    else hasUnescapedQuote (d :: rest)

/-- A character that is neither a backslash nor a quote is transparent to
the unescaped-quote scanner. -/
theorem hasUnescapedQuote_cons_other (c : Char) (t : List Char)
    (hb : c ≠ '\\') (hq : c ≠ '\'') :
    hasUnescapedQuote (c :: t) = hasUnescapedQuote t := by
  cases t with
  | nil => simp [hasUnescapedQuote, hq]
  | cons d r => rw [hasUnescapedQuote, if_neg hb, if_neg hq]

/-- The escaped query never contains an unescaped single quote. -/
theorem escapedQuery_no_unescaped_quote (q : List Char) :
    hasUnescapedQuote (escapedQuery q) = false := by
  have hbq : ('\\' : Char) ≠ '\'' := by decide
  induction q with
  | nil => rfl
  | cons c rest ih =>
    by_cases hb : c = '\\'
    · subst hb
      simp only [escapedQuery, escapeBackslashes, escapeQuotes, ite_true,
        if_neg hbq] at ih ⊢
      simpa [hasUnescapedQuote] using ih
    · by_cases hq : c = '\''
      · subst hq
        simp only [escapedQuery, escapeBackslashes, escapeQuotes, ite_true,
          if_neg (by decide : ('\'' : Char) ≠ '\\')] at ih ⊢
        simpa [hasUnescapedQuote] using ih
      · simp only [escapedQuery, escapeBackslashes, escapeQuotes, if_neg hb,
          if_neg hq] at ih ⊢
        rw [hasUnescapedQuote_cons_other c _ hb hq]
        exact ih

/-- C9: the `search` tool builds the Drive query as exactly
`fullText contains` followed by a quote, the escaped user query (every
backslash doubled, then every single quote replaced by backslash-quote),
and a closing quote; and the escaped text between the outer quotes never
contains an unescaped single quote, for any input. -/
theorem c9_search_query_escaping (q : List Char) :
    formattedQuery q =
      ("fullText contains ").toList ++
        '\'' :: (escapeQuotes (escapeBackslashes q) ++ ['\'']) ∧
    hasUnescapedQuote (escapedQuery q) = false :=
  ⟨rfl, escapedQuery_no_unescaped_quote q⟩

end GDriveSearch

namespace Puppeteer

/-- Whether the text begins with the three-character separator `://`. -/
def sepHead : List Char → Bool
  | a :: b :: c :: _ => a = ':' && b = '/' && c = '/'
  | _ => false

/-- Whether the text contains no occurrence of the separator `://`. -/
def noSep : List Char → Bool
  | [] => true
  | c :: rest => !sepHead (c :: rest) && noSep rest

/-- Push a character onto the first segment of a split result. -/
def modifyHeadCons (c : Char) : List (List Char) → List (List Char)
  | [] => [[c]]
  | h :: t => (c :: h) :: t

/-- `uri.split("://")` of the handler: left-to-right, non-overlapping
splitting of the text at each occurrence of `://`. -/
def splitSep : List Char → List (List Char)
  | [] => [[]]
  | [c] => [[c]]
  | [c, d] => [[c, d]]
  | c :: d :: e :: rest =>
    if sepHead (c :: d :: e :: rest) then [] :: splitSep rest
    else modifyHeadCons c (splitSep (d :: e :: rest))

/-- `screenshots.get(name)`: the stored screenshots as a name-indexed
association (most recent binding first, as `Map.set` overwrites). -/
def lookupShot (name : List Char) : List (List Char × List Char) → Option (List Char)
  | [] => none
  | (k, v) :: rest => if k = name then some v else lookupShot name rest

/-- `consoleLogs.join` with a newline separator. -/
def joinLogs : List (List Char) → List Char
  | [] => []
  | [l] => l
  | l :: ls => l ++ '\n' :: joinLogs ls

/-- A contents entry of a read-resource response: either a text body or a
base64 blob, with its URI and MIME type. -/
inductive Payload where
  | text : List Char → Payload
  | blob : List Char → Payload
deriving DecidableEq, Repr

/-- One entry of the `contents` array the handler returns. -/
structure ResourceContents where
  uri : List Char
  mimeType : List Char
  payload : Payload
deriving DecidableEq, Repr

/-- Whether the second text begins with the first. -/
def listStartsWith : List Char → List Char → Bool
  | [], _ => true
  | _ :: _, [] => false
  | p :: ps, c :: cs => p = c && listStartsWith ps cs

/-- Embedding of the puppeteer server's `ReadResource` handler: URI
`console://logs` returns the joined console log as `text/plain`; a URI
starting with `screenshot://` looks up the second `://`-separated segment
of the URI among the stored screenshots and, when a non-empty blob is
found (the source guards with a truthiness test on the looked-up string),
returns it as a single `image/png` entry; everything else throws
`Resource not found`. -/
def readResource (logs : List (List Char)) (shots : List (List Char × List Char))
    (uri : List Char) : Except (List Char) (List ResourceContents) :=
  if uri = ("console://logs").toList then
    .ok [⟨uri, ("text/plain").toList, .text (joinLogs logs)⟩]
  else if listStartsWith ("screenshot://").toList uri then
    match lookupShot ((splitSep uri).getD 1 []) shots with
    | some s =>
      if s.isEmpty then .error (("Resource not found: ").toList ++ uri)
      else .ok [⟨uri, ("image/png").toList, .blob s⟩]
    | none => .error (("Resource not found: ").toList ++ uri)
  else .error (("Resource not found: ").toList ++ uri)

/-- Splitting a separator-free text yields that text as the only
segment. -/
theorem splitSep_noSep (l : List Char) (h : noSep l = true) : splitSep l = [l] := by
  induction l with
  | nil => rfl
  | cons c xs ih =>
    obtain ⟨h1, h2⟩ : sepHead (c :: xs) = false ∧ noSep xs = true := by
      simpa [noSep, Bool.and_eq_true] using h
    rcases xs with _ | ⟨d, _ | ⟨e, rest⟩⟩
    · rfl
    · rfl
    · rw [splitSep, if_neg (by simp [h1]), ih h2]
      rfl

/-- Splitting `screenshot://` followed by anything puts the scheme in the
first segment and splits the remainder. -/
theorem splitSep_scheme (name : List Char) :
    splitSep (("screenshot://").toList ++ name) =
      ("screenshot").toList :: splitSep name := rfl

/-- The name the handler extracts from a screenshot URI is the full text
after the scheme exactly when that text contains no `://`. -/
theorem extractedName (name : List Char) (hn : noSep name = true) :
    (splitSep (("screenshot://").toList ++ name)).getD 1 [] = name := by
  rw [splitSep_scheme, splitSep_noSep name hn]
  rfl

/-- A text starts with any text it extends. -/
theorem listStartsWith_append (p t : List Char) :
    listStartsWith p (p ++ t) = true := by
  induction p with
  | nil => rfl
  | cons c ps ih => simp [listStartsWith, ih]

/-- A screenshot URI is never the console-log URI. -/
theorem scheme_ne_console (name : List Char) :
    (("screenshot://").toList ++ name) = ("console://logs").toList → False := by
  intro h
  rw [show ("screenshot://").toList = 's' :: ("creenshot://").toList from rfl,
    List.cons_append,
    show ("console://logs").toList = 'c' :: ("onsole://logs").toList from rfl] at h
  injection h with h1 _
  exact absurd h1 (by decide)

/-- C10 counterexample: a screenshot stored under the name `a` and a
request for the URI naming the screenshot `a://b`: no screenshot named
`a://b` was ever stored, yet the handler — which looks up only the text
between the first two `://` separators — finds `a` and returns its blob
instead of throwing. -/
theorem c10_counterexample :
    lookupShot ("a://b").toList [(("a").toList, ("B").toList)] = none ∧
    readResource [] [(("a").toList, ("B").toList)] ("screenshot://a://b").toList =
      .ok [⟨("screenshot://a://b").toList, ("image/png").toList,
            .blob (("B").toList)⟩] := by
  decide

/-- C10 amended: for screenshot names containing no `://`, the handler
returns the stored non-empty blob as a single `image/png` entry exactly
when a screenshot of that name is stored (successful screenshot calls
store non-empty base64 strings) and throws `Resource not found` when it
is not stored; a URI that is neither the console-log URI nor of
screenshot form always throws. For a name containing `://`, the handler
instead looks up only the portion before the second separator. -/
theorem c10_read_screenshot (logs : List (List Char))
    (shots : List (List Char × List Char)) (name : List Char)
    (hn : noSep name = true) :
    (∀ b, lookupShot name shots = some b → b ≠ [] →
      readResource logs shots (("screenshot://").toList ++ name) =
        .ok [⟨("screenshot://").toList ++ name, ("image/png").toList, .blob b⟩]) ∧
    (lookupShot name shots = none →
      readResource logs shots (("screenshot://").toList ++ name) =
        .error (("Resource not found: ").toList ++
          (("screenshot://").toList ++ name))) ∧
    (∀ uri : List Char, uri ≠ ("console://logs").toList →
      listStartsWith ("screenshot://").toList uri = false →
      readResource logs shots uri =
        .error (("Resource not found: ").toList ++ uri)) := by
  refine ⟨?_, ?_, ?_⟩
  · intro b hb hbne
    rcases b with _ | ⟨x, xs⟩
    · exact absurd rfl hbne
    · unfold readResource
      rw [if_neg (scheme_ne_console name),
        if_pos (listStartsWith_append ("screenshot://").toList name),
        extractedName name hn, hb]
      rfl
  · intro hb
    unfold readResource
    rw [if_neg (scheme_ne_console name),
      if_pos (listStartsWith_append ("screenshot://").toList name),
      extractedName name hn, hb]
  · intro uri hne hnsw
    unfold readResource
    rw [if_neg hne, if_neg (by simp only [Bool.not_eq_true]; exact hnsw)]

theorem c10_read_screenshot_witness :
    readResource [] [(("a").toList, ("B").toList)]
        (("screenshot://").toList ++ ("a").toList) =
      .ok [⟨("screenshot://").toList ++ ("a").toList, ("image/png").toList,
            .blob (("B").toList)⟩] :=
  (c10_read_screenshot [] [(("a").toList, ("B").toList)] ("a").toList
    (by decide)).1 ("B").toList rfl (by decide)

end Puppeteer
